import Mathlib

/-!
Shallow embedding of the task-expansion engine of the `wbs-tool` repository
(`src/utils/wbs_logic.py` and `src/utils/weekly_logic.py`), together with
theorems settling the behavioural claims about it.

Modelling conventions:
* Python `int` is `Int`; Python `float` is modelled as `Rat` (exact rational
  arithmetic).  CPython's `round` builtin performs round-half-to-even; on the
  rational model this is `rhe` below.  The idealisation replaces binary
  floating point by exact rationals; on every input appearing in a claim the
  two semantics were checked to produce the same digits.
* `datetime.date` is modelled by its day number: an `Int` counting days since
  1970-01-01 (so `weekday d = (d + 3) % 7`, Monday = 0, matching
  `date.weekday()`).  `daysFromCivil`/`civilFromDays` convert between
  (year, month, day) in the proleptic Gregorian calendar and day numbers.
* Python dicts used as records become Lean structures; `f"..."` formatting
  becomes explicit string concatenation with `toString`.
-/

namespace WbsTool

/- Batteries marks the `Rat` field operations `@[irreducible]`, which blocks
`decide`/`rfl` evaluation of concrete rational arithmetic; re-mark them
semireducible inside this development so concrete instances can be computed. -/
attribute [local semireducible] Rat.mul Rat.add Rat.sub Rat.inv Rat.ofScientific

/-- Round-half-to-even on rationals, modelling Python's `round(x)` (CPython
rounds the exact value of the float argument to the nearest integer, ties to
even). -/
def rhe (q : Rat) : Int :=
  if q - (q.floor : Rat) < 1/2 then q.floor
  else if 1/2 < q - (q.floor : Rat) then q.floor + 1
  else if q.floor % 2 = 0 then q.floor else q.floor + 1

lemma Rat.floor_le' (q : Rat) : (q.floor : Rat) ≤ q := Rat.le_floor.mp le_rfl

lemma Rat.lt_floor_add_one' (q : Rat) : q < (q.floor : Rat) + 1 := by
  by_contra h
  push_neg at h
  have : q.floor + 1 ≤ q.floor := Rat.le_floor.mpr (by push_cast; linarith)
  omega

/-- `rhe` lands within half a unit of its argument. -/
lemma rhe_bounds (q : Rat) : q - 1/2 ≤ (rhe q : Rat) ∧ (rhe q : Rat) ≤ q + 1/2 := by
  have h1 := Rat.floor_le' q
  have h2 := Rat.lt_floor_add_one' q
  unfold rhe
  split_ifs <;> push_cast <;> constructor <;> linarith

/-- Round-half-to-even is monotone. -/
lemma rhe_mono {q q' : Rat} (h : q ≤ q') : rhe q ≤ rhe q' := by
  by_contra hc
  push_neg at hc
  have h1 : (rhe q' : Rat) + 1 ≤ (rhe q : Rat) := by
    have := Int.add_one_le_iff.mpr hc
    exact_mod_cast this
  have hb := rhe_bounds q
  have hb' := rhe_bounds q'
  have hqq : q = q' := le_antisymm h (by linarith)
  subst hqq
  omega

/-- Python's `round(x, casas)` on the rational model: round-half-to-even at
`casas` decimal places. -/
def roundTo (q : Rat) (casas : Nat) : Rat :=
  (rhe (q * (10 : Rat) ^ casas) : Rat) / (10 : Rat) ^ casas

/-- `calcular_percentuais` from `src/utils/wbs_logic.py`:
progressive percentage schedule for a task spanning `dias` days. -/
def calcular_percentuais (dias : Int) : List Int :=
  if dias ≤ 0 then []
  else if dias = 1 then [100]
  else
    let incremento : Rat := 100 / (dias : Rat)
    (List.range' 1 dias.toNat).map (fun (i : ℕ) =>
      if (i : Int) = dias then 100
      else min (rhe (incremento * (i : Rat))) 100)

/-- The generic branch of `calcular_percentuais` as an explicit map. -/
lemma calcular_percentuais_eq_map {d : Int} (hd : 2 ≤ d) :
    calcular_percentuais d =
      (List.range' 1 d.toNat).map (fun (i : ℕ) =>
        if (i : Int) = d then 100
        else min (rhe ((100 / (d : Rat)) * (i : Rat))) 100) := by
  unfold calcular_percentuais
  rw [if_neg (by omega), if_neg (by omega)]

/-- For at least one day, `calcular_percentuais` produces one entry per day. -/
lemma calcular_percentuais_length {d : Int} (hd : 1 ≤ d) :
    (calcular_percentuais d).length = d.toNat := by
  rcases eq_or_lt_of_le hd with h | h
  · rw [← h]; rfl
  · rw [calcular_percentuais_eq_map (by omega), List.length_map, List.length_range']

/-- The progressive percentage schedule is non-decreasing, for every `dias`. -/
lemma calcular_percentuais_chain' (d : Int) :
    (calcular_percentuais d).Chain' (· ≤ ·) := by
  unfold calcular_percentuais
  split_ifs with h1 h2
  · exact List.chain'_nil
  · exact List.chain'_singleton _
  · rw [List.chain'_map]
    refine List.Pairwise.chain' ?_
    refine (List.pairwise_lt_range' 1 d.toNat).imp_of_mem ?_
    intro a b ha hb hab
    rw [List.mem_range'_1] at ha hb
    have hbd : (b : Int) ≤ d := by omega
    have had : (a : Int) ≠ d := by omega
    rw [if_neg had]
    by_cases hb' : (b : Int) = d
    · rw [if_pos hb']
      exact min_le_right _ _
    · rw [if_neg hb']
      refine min_le_min ?_ le_rfl
      refine rhe_mono ?_
      have hpos : (0 : Rat) ≤ 100 / (d : Rat) := by
        apply div_nonneg (by norm_num)
        have : (0 : Int) < d := by omega
        exact_mod_cast this.le
      exact mul_le_mul_of_nonneg_left (by exact_mod_cast hab.le) hpos

/-- For at least one day, the schedule terminates in exactly 100. -/
lemma calcular_percentuais_getLast? {d : Int} (hd : 1 ≤ d) :
    (calcular_percentuais d).getLast? = some 100 := by
  rcases eq_or_lt_of_le hd with h | h
  · rw [← h]; rfl
  · have hd2 : 2 ≤ d := by omega
    rw [calcular_percentuais_eq_map hd2]
    have hn : d.toNat = (d.toNat - 1) + 1 := by omega
    rw [hn, List.range'_concat, List.map_append]
    simp only [List.map_cons, List.map_nil]
    rw [List.getLast?_concat, if_pos (show ((1 + 1 * (d.toNat - 1) : ℕ) : Int) = d by
      push_cast; omega)]

/-- C1: for every `dias` in `1..30`, `calcular_percentuais dias` has length
`dias`, is non-decreasing and ends in exactly 100; the lists for 1, 2, 3 and 4
days are `[100]`, `[50, 100]`, `[33, 67, 100]` and `[25, 50, 75, 100]`; and
every non-positive `dias` yields the empty list. -/
theorem claim_C1_calcular_percentuais :
    (∀ d : Int, 1 ≤ d → d ≤ 30 →
        (calcular_percentuais d).length = d.toNat ∧
        (calcular_percentuais d).Chain' (· ≤ ·) ∧
        (calcular_percentuais d).getLast? = some 100) ∧
    calcular_percentuais 1 = [100] ∧
    calcular_percentuais 2 = [50, 100] ∧
    calcular_percentuais 3 = [33, 67, 100] ∧
    calcular_percentuais 4 = [25, 50, 75, 100] ∧
    (∀ d : Int, d ≤ 0 → calcular_percentuais d = []) := by
  refine ⟨?_, by decide, by decide, by decide, by decide, ?_⟩
  · intro d h1 _h30
    exact ⟨calcular_percentuais_length h1, calcular_percentuais_chain' d,
      calcular_percentuais_getLast? h1⟩
  · intro d hd
    simp [calcular_percentuais, hd]

/-- Witness for C1: the bounded statement instantiated at 5 days, and the
defensive branch at -3. -/
theorem claim_C1_witness :
    ((calcular_percentuais 5).length = (5 : Int).toNat ∧
      (calcular_percentuais 5).Chain' (· ≤ ·) ∧
      (calcular_percentuais 5).getLast? = some 100) ∧
    calcular_percentuais (-3) = [] :=
  ⟨claim_C1_calcular_percentuais.1 5 (by decide) (by decide),
   claim_C1_calcular_percentuais.2.2.2.2.2 (-3) (by decide)⟩

/-- One row of the percentual-mode selection (`{"id": ..., "nome": ..., "dias": ...}`). -/
structure TaskSelection where
  id : Int
  nome : String
  dias : Int
deriving DecidableEq

/-- One expanded task as produced by `gerar_tarefas_expandidas`
(`{"tarefa": ..., "projeto": ..., "wbs_type": ...}`). -/
structure ExpandedTask where
  tarefa : String
  projeto : String
  wbs_type : String
deriving DecidableEq

/-- `gerar_tarefas_expandidas` from `src/utils/wbs_logic.py`: one task per
percentage of each selected row, labelled `"{code} - {id}. {name} - {p}%"`. -/
def gerar_tarefas_expandidas (nome_wbs projeto wbs_type : String)
    (tarefas_selecionadas : List TaskSelection) : List ExpandedTask :=
  tarefas_selecionadas.flatMap fun tarefa =>
    (calcular_percentuais tarefa.dias).map fun percentual =>
      { tarefa := nome_wbs ++ " - " ++ toString tarefa.id ++ ". " ++ tarefa.nome
            ++ " - " ++ toString percentual ++ "%"
        projeto := projeto
        wbs_type := wbs_type }

/-- `validar_selecao` from `src/utils/wbs_logic.py`, the loop over rows. -/
def validar_selecao_loop : List TaskSelection → Bool × String
  | [] => (true, "")
  | t :: rest =>
      if t.dias ≤ 0 then
        (false, "A tarefa '" ++ t.nome ++ "' precisa ter pelo menos 1 dia.")
      else validar_selecao_loop rest

/-- `validar_selecao` from `src/utils/wbs_logic.py`. -/
def validar_selecao (tarefas_selecionadas : List TaskSelection) : Bool × String :=
  if tarefas_selecionadas.isEmpty then
    (false, "Selecione pelo menos uma tarefa.")
  else
    validar_selecao_loop tarefas_selecionadas

/-- Python's `str.strip()`: drop leading and trailing whitespace. -/
def pyStrip (s : String) : String :=
  ⟨((s.data.dropWhile Char.isWhitespace).reverse.dropWhile Char.isWhitespace).reverse⟩

/-- One expanded task of the multiplicador flow, which additionally carries the
category (`{"tarefa": ..., "projeto": ..., "wbs_type": ..., "categoria": ...}`). -/
structure ExpandedTaskCategoria where
  tarefa : String
  projeto : String
  wbs_type : String
  categoria : String
deriving DecidableEq

/-- `gerar_tarefas_multiplicador` from `src/utils/wbs_logic.py`: the cross
product of the stripped non-empty items with the fixed tasks. -/
def gerar_tarefas_multiplicador (nome_wbs projeto wbs_type categoria_nome : String)
    (itens : List String) (tarefas_fixas : List String) : List ExpandedTaskCategoria :=
  itens.flatMap fun item0 =>
    let item := pyStrip item0
    if item = "" then []
    else tarefas_fixas.map fun tarefa =>
      { tarefa := nome_wbs ++ " - <" ++ item ++ "> - " ++ tarefa
        projeto := projeto
        wbs_type := wbs_type
        categoria := categoria_nome }

/-- C4: with every selection at one day or more, `gerar_tarefas_expandidas`
produces exactly `sum dias_i` tasks; the labels appear selection by selection
in input order and, inside one selection, follow `calcular_percentuais`, whose
order is non-decreasing in the percentage; `projeto` and `wbs_type` are copied
unchanged into every task. -/
theorem claim_C4_gerar_tarefas_expandidas
    (nome_wbs projeto wbs_type : String) (sel : List TaskSelection)
    (hsel : ∀ t ∈ sel, 1 ≤ t.dias) :
    (gerar_tarefas_expandidas nome_wbs projeto wbs_type sel).length
        = (sel.map (fun t => t.dias.toNat)).sum ∧
    (∀ e ∈ gerar_tarefas_expandidas nome_wbs projeto wbs_type sel,
        e.projeto = projeto ∧ e.wbs_type = wbs_type) ∧
    (gerar_tarefas_expandidas nome_wbs projeto wbs_type sel).map (fun e => e.tarefa)
        = sel.flatMap (fun t => (calcular_percentuais t.dias).map (fun p =>
            nome_wbs ++ " - " ++ toString t.id ++ ". " ++ t.nome
              ++ " - " ++ toString p ++ "%")) ∧
    (∀ t ∈ sel, (calcular_percentuais t.dias).Chain' (· ≤ ·)) := by
  refine ⟨?_, ?_, ?_, fun t _ => calcular_percentuais_chain' t.dias⟩
  · rw [gerar_tarefas_expandidas, List.length_flatMap]
    congr 1
    refine List.map_congr_left fun t ht => ?_
    simp only [Function.comp_apply, List.length_map]
    exact calcular_percentuais_length (hsel t ht)
  · intro e he
    rw [gerar_tarefas_expandidas, List.mem_flatMap] at he
    obtain ⟨t, _, he⟩ := he
    rw [List.mem_map] at he
    obtain ⟨p, _, rfl⟩ := he
    exact ⟨rfl, rfl⟩
  · rw [gerar_tarefas_expandidas, List.map_flatMap]
    refine List.flatMap_congr fun t _ => ?_
    rw [List.map_map]
    rfl

/-- Witness for C4: the single selection "Tarefa X" over two days expands to
two tasks. -/
theorem claim_C4_witness :
    (gerar_tarefas_expandidas "010" "Projeto" "eletrico"
        [⟨1, "Tarefa X", 2⟩]).length = 2 :=
  ((claim_C4_gerar_tarefas_expandidas "010" "Projeto" "eletrico"
      [⟨1, "Tarefa X", 2⟩] (by decide)).1).trans (by decide)

lemma validar_selecao_loop_offender :
    ∀ sel : List TaskSelection, (∃ t ∈ sel, t.dias ≤ 0) →
      (validar_selecao_loop sel).1 = false ∧
      ∃ t ∈ sel, t.dias ≤ 0 ∧
        List.IsInfix t.nome.data (validar_selecao_loop sel).2.data
  | [], h => absurd h (by simp)
  | t :: rest, h => by
    rw [validar_selecao_loop]
    by_cases ht : t.dias ≤ 0
    · rw [if_pos ht]
      refine ⟨rfl, t, List.mem_cons_self t rest, ht, ?_⟩
      exact ⟨"A tarefa '".data, "' precisa ter pelo menos 1 dia.".data, by simp⟩
    · rw [if_neg ht]
      have hrest : ∃ u ∈ rest, u.dias ≤ 0 := by
        obtain ⟨u, hu, hud⟩ := h
        rcases List.mem_cons.mp hu with rfl | hu'
        · exact absurd hud ht
        · exact ⟨u, hu', hud⟩
      obtain ⟨h1, u, hu, hud, hinf⟩ := validar_selecao_loop_offender rest hrest
      exact ⟨h1, u, List.mem_cons_of_mem t hu, hud, hinf⟩

lemma validar_selecao_loop_ok :
    ∀ sel : List TaskSelection, (∀ t ∈ sel, 1 ≤ t.dias) →
      validar_selecao_loop sel = (true, "")
  | [], _ => rfl
  | t :: rest, h => by
    rw [validar_selecao_loop, if_neg (by have := h t (List.mem_cons_self t rest); omega)]
    exact validar_selecao_loop_ok rest fun u hu => h u (List.mem_cons_of_mem t hu)

/-- C6: `validar_selecao` rejects the empty selection with a non-empty message,
rejects any selection containing a row with non-positive `dias` with a message
that contains that row's `nome`, and accepts every non-empty selection whose
rows all have `dias ≥ 1`, returning an empty message. -/
theorem claim_C6_validar_selecao (sel : List TaskSelection) :
    ((validar_selecao []).1 = false ∧ (validar_selecao []).2 ≠ "") ∧
    ((∃ t ∈ sel, t.dias ≤ 0) →
      (validar_selecao sel).1 = false ∧
      ∃ t ∈ sel, t.dias ≤ 0 ∧
        List.IsInfix t.nome.data (validar_selecao sel).2.data) ∧
    (sel ≠ [] → (∀ t ∈ sel, 1 ≤ t.dias) → validar_selecao sel = (true, "")) := by
  refine ⟨⟨rfl, by decide⟩, ?_, ?_⟩
  · intro h
    have hne : ¬sel.isEmpty := by
      obtain ⟨t, ht, _⟩ := h
      cases sel with
      | nil => cases ht
      | cons a l => simp
    rw [validar_selecao, if_neg hne]
    exact validar_selecao_loop_offender sel h
  · intro hne hok
    rw [validar_selecao, if_neg (by simpa using hne)]
    exact validar_selecao_loop_ok sel hok

/-- Witness for C6: the three behaviours at concrete selections. -/
theorem claim_C6_witness :
    (validar_selecao []).1 = false ∧
    (validar_selecao [⟨1, "X", 0⟩]).1 = false ∧
    validar_selecao [⟨1, "X", 3⟩] = (true, "") :=
  ⟨(claim_C6_validar_selecao []).1.1,
   ((claim_C6_validar_selecao [⟨1, "X", 0⟩]).2.1 (by decide)).1,
   (claim_C6_validar_selecao [⟨1, "X", 3⟩]).2.2 (by decide) (by decide)⟩

/-- C5: `gerar_tarefas_multiplicador` emits, for each item whose stripped form
is non-empty and in input order, one task per fixed task in order, labelled
`"{code} - <{stripped item}> - {fixed task}"` with `categoria` set to the
category name; the output length is the number of non-blank items times the
number of fixed tasks, and the concrete example with a blank middle item
produces exactly the four expected entries. -/
theorem claim_C5_gerar_tarefas_multiplicador
    (nome_wbs projeto wbs_type categoria_nome : String)
    (itens tarefas_fixas : List String) :
    (gerar_tarefas_multiplicador nome_wbs projeto wbs_type categoria_nome
        itens tarefas_fixas).length
      = (itens.filter (fun i => !(pyStrip i == ""))).length * tarefas_fixas.length ∧
    (∀ e ∈ gerar_tarefas_multiplicador nome_wbs projeto wbs_type categoria_nome
        itens tarefas_fixas,
      e.categoria = categoria_nome ∧ e.projeto = projeto ∧ e.wbs_type = wbs_type) ∧
    (gerar_tarefas_multiplicador nome_wbs projeto wbs_type categoria_nome
        itens tarefas_fixas).map (fun e => e.tarefa)
      = itens.flatMap (fun item0 =>
          if pyStrip item0 = "" then []
          else tarefas_fixas.map (fun tf =>
            nome_wbs ++ " - <" ++ pyStrip item0 ++ "> - " ++ tf)) ∧
    gerar_tarefas_multiplicador "010" "Proj" "aquisicao" "Hardware Mecânico"
        ["Motor A", " ", "Motor B"] ["Definir lista", "Verificar estoque"]
      = [⟨"010 - <Motor A> - Definir lista", "Proj", "aquisicao", "Hardware Mecânico"⟩,
         ⟨"010 - <Motor A> - Verificar estoque", "Proj", "aquisicao", "Hardware Mecânico"⟩,
         ⟨"010 - <Motor B> - Definir lista", "Proj", "aquisicao", "Hardware Mecânico"⟩,
         ⟨"010 - <Motor B> - Verificar estoque", "Proj", "aquisicao", "Hardware Mecânico"⟩] := by
  refine ⟨?_, ?_, ?_, by decide⟩
  · induction itens with
    | nil => simp [gerar_tarefas_multiplicador]
    | cons a l ih =>
      rw [gerar_tarefas_multiplicador, List.flatMap_cons, List.length_append,
        List.filter_cons]
      rw [gerar_tarefas_multiplicador] at ih
      by_cases ha : pyStrip a = ""
      · simp only [if_pos ha, List.length_nil, ha, beq_self_eq_true, Bool.not_true,
          Bool.false_eq_true, if_false]
        simpa using ih
      · have hb : (pyStrip a == "") = false := beq_eq_false_iff_ne.mpr ha
        simp only [if_neg ha, hb, Bool.not_false, if_true, List.length_map,
          List.length_cons]
        rw [ih]
        ring
  · intro e he
    rw [gerar_tarefas_multiplicador, List.mem_flatMap] at he
    obtain ⟨item0, _, he⟩ := he
    by_cases ha : pyStrip item0 = ""
    · rw [if_pos ha] at he
      cases he
    · rw [if_neg ha, List.mem_map] at he
      obtain ⟨tf, _, rfl⟩ := he
      exact ⟨rfl, rfl, rfl⟩
  · rw [gerar_tarefas_multiplicador, List.map_flatMap]
    refine List.flatMap_congr fun item0 _ => ?_
    by_cases ha : pyStrip item0 = ""
    · rw [if_pos ha, if_pos ha]
      rfl
    · rw [if_neg ha, if_neg ha, List.map_map]
      rfl

/-- Witness for C5: the cross-product size at the concrete example. -/
theorem claim_C5_witness :
    (gerar_tarefas_multiplicador "010" "Proj" "aquisicao" "Hardware Mecânico"
        ["Motor A", " ", "Motor B"] ["Definir lista", "Verificar estoque"]).length
      = (["Motor A", " ", "Motor B"].filter (fun i => !(pyStrip i == ""))).length *
          (["Definir lista", "Verificar estoque"] : List String).length :=
  (claim_C5_gerar_tarefas_multiplicador "010" "Proj" "aquisicao" "Hardware Mecânico"
    ["Motor A", " ", "Motor B"] ["Definir lista", "Verificar estoque"]).1


/-! ### Dates

`datetime.date` is modelled by its day number (days since 1970-01-01).
`weekday` matches Python's `date.weekday()` (Monday = 0 … Sunday = 6);
day 0 = 1970-01-01 was a Thursday. -/

def weekday (d : Int) : Int := (d + 3) % 7

/-- Day number of a proleptic-Gregorian civil date (Howard Hinnant's
`days_from_civil` algorithm, with floor division). -/
def daysFromCivil (y m d : Int) : Int :=
  let y' := if m ≤ 2 then y - 1 else y
  let era := y' / 400
  let yoe := y' - era * 400
  let mp := (m + 9) % 12
  let doy := (153 * mp + 2) / 5 + d - 1
  let doe := yoe * 365 + yoe / 4 - yoe / 100 + doy
  era * 146097 + doe - 719468

/-- Civil date `(year, month, day)` of a day number (Hinnant's
`civil_from_days`). -/
def civilFromDays (z0 : Int) : Int × Int × Int :=
  let z := z0 + 719468
  let era := z / 146097
  let doe := z - era * 146097
  let yoe := (doe - doe / 1460 + doe / 36524 - doe / 146096) / 365
  let y := yoe + era * 400
  let doy := doe - (365 * yoe + yoe / 4 - yoe / 100)
  let mp := (5 * doy + 2) / 153
  let d := doy - (153 * mp + 2) / 5 + 1
  let m := if mp < 10 then mp + 3 else mp - 9
  (if m ≤ 2 then y + 1 else y, m, d)

example : daysFromCivil 2024 1 1 = 19723 := by decide
example : weekday (daysFromCivil 2024 1 1) = 0 := by decide
example : weekday (daysFromCivil 2024 1 5) = 4 := by decide
example : civilFromDays (daysFromCivil 2024 3 15) = (2024, 3, 15) := by decide

/-! ### `src/utils/weekly_logic.py` -/

/-- `resolver_data_task`: keep the Friday unless it is a holiday, in which
case move to the following Monday (+3 days).  The holiday set is modelled as
a list with membership. -/
def resolver_data_task (sexta : Int) (feriados : List Int) : Int :=
  if sexta ∈ feriados then sexta + 3 else sexta

/-- `_proxima_sexta_ou_mesma`: first Friday on or after the given date. -/
def proxima_sexta_ou_mesma (data_inicio : Int) : Int :=
  data_inicio + (4 - weekday data_inicio) % 7

/-- The `while candidata <= prazo_limite` loop of `proximas_datas_tasks`,
translated by structural recursion on the number of remaining iterations
(the loop guard is kept as the first `if`; `fuel` is any upper bound on the
iteration count, each iteration advancing by one week). -/
def proximas_datas_go (prazo_limite : Int) (feriados : List Int) :
    Nat → Int → List (Int × Bool)
  | 0, _ => []
  | fuel + 1, candidata =>
      if candidata ≤ prazo_limite then
        let ajustada := decide (candidata ∈ feriados)
        let data_task := resolver_data_task candidata feriados
        (if data_task ≤ prazo_limite then [(data_task, ajustada)] else [])
          ++ proximas_datas_go prazo_limite feriados fuel (candidata + 7)
      else []

/-- `proximas_datas_tasks`: weekly Friday candidates with holiday resolution,
and the short-deadline fallback. -/
def proximas_datas_tasks (data_inicio prazo_limite : Int)
    (feriados : List Int) : List (Int × Bool) :=
  let resultado := proximas_datas_go prazo_limite feriados
    (prazo_limite + 1 - proxima_sexta_ou_mesma data_inicio).toNat
    (proxima_sexta_ou_mesma data_inicio)
  if resultado = [] ∧ data_inicio ≤ prazo_limite then [(prazo_limite, false)]
  else resultado

/-- `_distribuir_com_ajuste_final`: `n` rounded shares of `total`, the last
one adjusted so the total closes exactly. -/
def distribuir_com_ajuste_final (total : Rat) (n : Int) (casas : Nat) : List Rat :=
  if n ≤ 0 then []
  else
    let base := roundTo (total / (n : Rat)) casas
    let valores := List.replicate n.toNat base
    let soma_parcial := if 1 < n then roundTo valores.dropLast.sum casas else 0
    let ultimo := roundTo (total - soma_parcial) casas
    valores.dropLast ++ [ultimo]

/-- The `while d <= prazo_limite` loop of `dias_uteis_no_intervalo`,
translated like `proximas_datas_go` (one day per iteration). -/
def dias_uteis_go (prazo_limite : Int) : Nat → Int → List Int
  | 0, _ => []
  | fuel + 1, d =>
      if d ≤ prazo_limite then
        (if weekday d < 5 then [d] else []) ++ dias_uteis_go prazo_limite fuel (d + 1)
      else []

/-- `dias_uteis_no_intervalo`: all weekdays (Mon–Fri) in the closed interval. -/
def dias_uteis_no_intervalo (data_inicio prazo_limite : Int) : List Int :=
  if data_inicio > prazo_limite then []
  else dias_uteis_go prazo_limite (prazo_limite + 1 - data_inicio).toNat data_inicio

/-- A record of `distribuir_tasks_diarias_por_colaboradores` (the date is kept
as a day number; the code serialises it with `isoformat()`). -/
structure DailyTask where
  data : Int
  horas_previstas : Rat
  percentual_pendencia : Rat
  status : String
  ajustada_feriado : Bool
  dono_idx : Int
  dono_total : Int
deriving DecidableEq

/-- `distribuir_tasks_diarias_por_colaboradores`: one task per weekday per
collaborator; the running index `idx` into `percentuais` is realised by
zipping the date-major/owner-minor pair list with the share list. -/
def distribuir_tasks_diarias_por_colaboradores (data_inicio prazo_limite : Int)
    (colaboradores : Int) (horas_por_colaborador : Rat) : List DailyTask :=
  if colaboradores ≤ 0 then []
  else
    let dias := dias_uteis_no_intervalo data_inicio prazo_limite
    if dias = [] then []
    else
      let total_tasks : Int := dias.length * colaboradores
      let percentuais := distribuir_com_ajuste_final 100 total_tasks 1
      let pares := dias.flatMap fun d =>
        (List.range' 1 colaboradores.toNat).map fun dono_idx => (d, dono_idx)
      (pares.zip percentuais).map fun pd =>
        { data := pd.1.1
          horas_previstas := horas_por_colaborador
          percentual_pendencia := pd.2
          status := "planejada"
          ajustada_feriado := false
          dono_idx := (pd.1.2 : Int)
          dono_total := colaboradores }

/-- A record of `distribuir_tasks_semanais`. -/
structure SemanalRecord where
  data : Int
  horas_previstas : Rat
  percentual_pendencia : Rat
  status : String
  ajustada_feriado : Bool
deriving DecidableEq

/-- `distribuir_tasks_semanais`: despite the name, one record per weekday in
range; the `feriados` argument is accepted and discarded (`_ = feriados`). -/
def distribuir_tasks_semanais (data_inicio prazo_limite : Int)
    (horas_totais : Rat) (feriados : List Int) : List SemanalRecord :=
  let _ := feriados
  let datas := dias_uteis_no_intervalo data_inicio prazo_limite
  if datas = [] then []
  else
    let n : Int := datas.length
    let horas_por_semana := distribuir_com_ajuste_final horas_totais n 1
    let percentuais := distribuir_com_ajuste_final 100 n 1
    (datas.zip (horas_por_semana.zip percentuais)).map fun t =>
      { data := t.1
        horas_previstas := t.2.1
        percentual_pendencia := t.2.2
        status := "planejada"
        ajustada_feriado := false }

/-- CPython's fixed-point rendering `f"{p:.0f}"` for the non-negative values
arising here: round-half-to-even to an integer, printed in decimal. -/
def fmtFixed0 (p : Rat) : String := toString (rhe p)

/-- CPython's `f"{p:.1f}"` for the non-negative values arising here. -/
def fmtFixed1 (p : Rat) : String :=
  let m := rhe (p * 10)
  toString (m / 10) ++ "." ++ toString (m % 10)

/-- Two-digit zero padding, as in `strftime("%d/%m")`. -/
def pad2 (n : Int) : String :=
  if n < 10 then "0" ++ toString n else toString n

/-- `data.strftime("%d/%m")`. -/
def fmtDDMM (day : Int) : String :=
  let c := civilFromDays day
  pad2 c.2.2 ++ "/" ++ pad2 c.2.1

/-- `formatar_nome_task_generica`: task label with whole percentages rendered
without a decimal point (tolerance `1e-9`) and one decimal digit otherwise. -/
def formatar_nome_task_generica (os subconjunto : String) (percentual : Rat)
    (data : Int) : String :=
  let pct_str :=
    if |percentual - (rhe percentual : Rat)| < 1/1000000000 then
      fmtFixed0 percentual ++ "%"
    else
      fmtFixed1 percentual ++ "%"
  os ++ " - " ++ subconjunto ++ " - " ++ pct_str ++ " | Dia " ++ fmtDDMM data

/-! ### Closing-adjustment distribution: exactness analysis -/

lemma rat_floor_eq_intFloor (q : Rat) : q.floor = ⌊q⌋ := by
  rw [Rat.floor_def, ← Rat.floor_def']

lemma rhe_intCast (k : Int) : rhe ((k : Int) : Rat) = k := by
  have hfl : ((k : Rat)).floor = k := by
    rw [rat_floor_eq_intFloor, Int.floor_intCast]
  unfold rhe
  rw [hfl, if_pos (by norm_num)]

/-- Subtracting an integer commutes with `rhe` away from ties. -/
lemma rhe_sub_intCast {x : Rat} (k : Int) (hx : x - (x.floor : Rat) ≠ 1/2) :
    rhe (x - (k : Rat)) = rhe x - k := by
  have hfl : (x - (k : Rat)).floor = x.floor - k := by
    rw [rat_floor_eq_intFloor, rat_floor_eq_intFloor, Int.floor_sub_int]
  have he : x - (k : Rat) - (((x.floor - k : Int)) : Rat) = x - (x.floor : Rat) := by
    push_cast
    ring
  unfold rhe
  rw [hfl, he]
  rcases lt_trichotomy (x - (x.floor : Rat)) (1/2 : Rat) with h | h | h
  · simp only [if_pos h]
  · exact absurd h hx
  · simp only [if_neg (show ¬(x - (x.floor : Rat) < 1/2) by linarith), if_pos h]
    omega

/-- `roundTo` fixes every multiple of `10 ^ (-casas)`. -/
lemma roundTo_scaled_int (k : Int) (c : Nat) :
    roundTo ((k : Rat) / (10 : Rat) ^ c) c = (k : Rat) / (10 : Rat) ^ c := by
  have h10 : ((10 : Rat) ^ c) ≠ 0 := by positivity
  unfold roundTo
  rw [div_mul_cancel₀ _ h10, rhe_intCast]

/-- Structure of `_distribuir_com_ajuste_final` for `n ≥ 1`: `n - 1` copies of
the rounded base share followed by the adjusted last share. -/
lemma distribuir_com_ajuste_final_eq (total : Rat) (n : Int) (casas : Nat)
    (hn : 1 ≤ n) :
    distribuir_com_ajuste_final total n casas =
      List.replicate (n.toNat - 1) (roundTo (total / (n : Rat)) casas)
        ++ [roundTo (total -
              (if 1 < n then
                roundTo (List.replicate (n.toNat - 1)
                  (roundTo (total / (n : Rat)) casas)).sum casas
               else 0)) casas] := by
  have hrep : (List.replicate n.toNat (roundTo (total / (n : Rat)) casas)).dropLast
      = List.replicate (n.toNat - 1) (roundTo (total / (n : Rat)) casas) := by
    have h : n.toNat = (n.toNat - 1) + 1 := by omega
    conv_lhs => rw [h, List.replicate_succ']
    rw [List.dropLast_concat]
  simp only [distribuir_com_ajuste_final, if_neg (show ¬n ≤ 0 by omega)]
  rw [hrep]

lemma distribuir_com_ajuste_final_length (total : Rat) (n : Int) (casas : Nat)
    (hn : 1 ≤ n) :
    (distribuir_com_ajuste_final total n casas).length = n.toNat := by
  rw [distribuir_com_ajuste_final_eq total n casas hn, List.length_append,
    List.length_replicate]
  simp
  omega

/-- The heart of C3: away from a rounding tie of the scaled total, the closing
adjustment makes the shares sum to exactly `round(total, casas)`. -/
lemma distribuir_com_ajuste_final_sum (total : Rat) (n : Int) (casas : Nat)
    (hn : 1 ≤ n)
    (hx : total * (10 : Rat) ^ casas - (((total * (10 : Rat) ^ casas).floor : Int) : Rat) ≠ 1/2) :
    (distribuir_com_ajuste_final total n casas).sum = roundTo total casas := by
  have h10 : ((10 : Rat) ^ casas) ≠ 0 := by positivity
  rw [distribuir_com_ajuste_final_eq total n casas hn, List.sum_append,
    List.sum_replicate, List.sum_cons, List.sum_nil, add_zero]
  rcases eq_or_lt_of_le hn with h1 | h1
  · rw [← h1]
    simp
  · -- n ≥ 2
    rw [if_pos h1]
    set B : Int := rhe (total / (n : Rat) * (10 : Rat) ^ casas) with hB
    have hbase : roundTo (total / (n : Rat)) casas = (B : Rat) / (10 : Rat) ^ casas := rfl
    have hnn : ((n.toNat : ℕ) : Rat) = (n : Rat) := by
      have h' : ((n.toNat : ℕ) : Int) = n := Int.toNat_of_nonneg (by omega)
      exact_mod_cast congrArg (fun z : Int => (z : Rat)) h'
    have hcast : ((n.toNat - 1 : ℕ) : Rat) = ((n - 1 : Int) : Rat) := by
      rw [Nat.cast_sub (by omega : 1 ≤ n.toNat), hnn]
      push_cast
      ring
    have hsmul : (n.toNat - 1) • roundTo (total / (n : Rat)) casas
        = (((n - 1) * B : Int) : Rat) / (10 : Rat) ^ casas := by
      rw [nsmul_eq_mul, hbase, hcast]
      push_cast
      ring
    rw [hsmul, roundTo_scaled_int]
    have hlast : roundTo (total - (((n - 1) * B : Int) : Rat) / (10 : Rat) ^ casas) casas
        = ((rhe (total * (10 : Rat) ^ casas) - (n - 1) * B : Int) : Rat) / (10 : Rat) ^ casas := by
      unfold roundTo
      have harg : (total - (((n - 1) * B : Int) : Rat) / (10 : Rat) ^ casas) * (10 : Rat) ^ casas
          = total * (10 : Rat) ^ casas - (((n - 1) * B : Int) : Rat) := by
        field_simp
      rw [harg, rhe_sub_intCast _ hx]
    rw [hlast]
    unfold roundTo
    push_cast
    field_simp

/-- C3, counterexample to the claim as stated: at `total = 3/2`, `n = 2`,
`casas = 0` (all values exactly representable in binary floating point, so the
rational model and the Python floats agree digit for digit) the shares are
`[1, 0]`, summing to 1, while `round(total, casas) = 2`: the two
round-half-to-even ties fall on opposite sides. -/
theorem claim_C3_counterexample :
    distribuir_com_ajuste_final (3/2 : Rat) 2 0 = [1, 0] ∧
    roundTo (3/2 : Rat) 0 = 2 ∧
    (distribuir_com_ajuste_final (3/2 : Rat) 2 0).sum ≠ roundTo (3/2 : Rat) 0 :=
  ⟨by decide, by decide, by decide⟩

/-- C3 (amended): for `n ≥ 1` the helper returns `n` shares whose first
`n - 1` all equal `round(total/n, casas)`; provided the scaled total
`total·10^casas` is not exactly halfway between two integers, the shares sum
to exactly `round(total, casas)`; non-positive `n` yields `[]`;
`_distribuir_com_ajuste_final(100, 3, 1) = [33.3, 33.3, 33.4]`; and every
percentage distribution of `100` at one decimal place sums to exactly `100`. -/
theorem claim_C3_distribuir_com_ajuste_final (total : Rat) (n : Int) (casas : Nat)
    (hn : 1 ≤ n)
    (hx : total * (10 : Rat) ^ casas - (((total * (10 : Rat) ^ casas).floor : Int) : Rat) ≠ 1/2) :
    (distribuir_com_ajuste_final total n casas).length = n.toNat ∧
    (distribuir_com_ajuste_final total n casas).dropLast
        = List.replicate (n.toNat - 1) (roundTo (total / (n : Rat)) casas) ∧
    (distribuir_com_ajuste_final total n casas).sum = roundTo total casas ∧
    (∀ m : Int, m ≤ 0 → distribuir_com_ajuste_final total m casas = []) ∧
    distribuir_com_ajuste_final 100 3 1 = [33.3, 33.3, 33.4] ∧
    (∀ m : Int, 1 ≤ m → (distribuir_com_ajuste_final 100 m 1).sum = 100) := by
  refine ⟨distribuir_com_ajuste_final_length total n casas hn, ?_,
    distribuir_com_ajuste_final_sum total n casas hn hx, ?_, by decide, ?_⟩
  · rw [distribuir_com_ajuste_final_eq total n casas hn, List.dropLast_concat]
  · intro m hm
    simp [distribuir_com_ajuste_final, hm]
  · intro m hm
    rw [distribuir_com_ajuste_final_sum 100 m 1 hm (by decide)]
    decide

/-- Witness for C3: the exact closure at `total = 100`, `n = 3`, one decimal. -/
theorem claim_C3_witness :
    (distribuir_com_ajuste_final 100 3 1).sum = roundTo 100 1 :=
  (claim_C3_distribuir_com_ajuste_final 100 3 1 (by decide) (by decide)).2.2.1

/-! ### Weekday enumeration -/

lemma dias_uteis_go_mem (p : Int) :
    ∀ (fuel : Nat) (d x : Int), p + 1 - d ≤ fuel →
      (x ∈ dias_uteis_go p fuel d ↔ d ≤ x ∧ x ≤ p ∧ weekday x < 5) := by
  intro fuel
  induction fuel with
  | zero =>
    intro d x h
    simp only [dias_uteis_go, List.not_mem_nil, false_iff]
    rintro ⟨h1, h2, _⟩
    omega
  | succ fuel ih =>
    intro d x h
    simp only [dias_uteis_go]
    by_cases hdp : d ≤ p
    · rw [if_pos hdp, List.mem_append, ih (d + 1) x (by omega)]
      by_cases hwd : weekday d < 5
      · rw [if_pos hwd]
        simp only [List.mem_singleton]
        constructor
        · rintro (rfl | ⟨h1, h2, h3⟩)
          · exact ⟨le_rfl, hdp, hwd⟩
          · exact ⟨by omega, h2, h3⟩
        · rintro ⟨h1, h2, h3⟩
          rcases eq_or_lt_of_le h1 with rfl | h1'
          · exact Or.inl rfl
          · exact Or.inr ⟨by omega, h2, h3⟩
      · rw [if_neg hwd]
        simp only [List.not_mem_nil, false_or]
        constructor
        · rintro ⟨h1, h2, h3⟩
          exact ⟨by omega, h2, h3⟩
        · rintro ⟨h1, h2, h3⟩
          refine ⟨?_, h2, h3⟩
          rcases eq_or_lt_of_le h1 with rfl | h1'
          · exact absurd h3 hwd
          · omega
    · rw [if_neg hdp]
      simp only [List.not_mem_nil, false_iff]
      rintro ⟨h1, h2, _⟩
      omega

lemma dias_uteis_go_pairwise (p : Int) :
    ∀ (fuel : Nat) (d : Int), p + 1 - d ≤ fuel →
      (dias_uteis_go p fuel d).Pairwise (· < ·) := by
  intro fuel
  induction fuel with
  | zero =>
    intro d h
    simp [dias_uteis_go]
  | succ fuel ih =>
    intro d h
    simp only [dias_uteis_go]
    by_cases hdp : d ≤ p
    · rw [if_pos hdp, List.pairwise_append]
      refine ⟨?_, ih (d + 1) (by omega), ?_⟩
      · split_ifs <;> simp
      · intro x hx y hy
        have hy' := (dias_uteis_go_mem p fuel (d + 1) y (by omega)).mp hy
        have hx' : x = d := by
          rcases Decidable.em (weekday d < 5) with hw | hw
          · rw [if_pos hw, List.mem_singleton] at hx
            exact hx
          · rw [if_neg hw] at hx
            cases hx
        omega
    · rw [if_neg hdp]
      exact List.Pairwise.nil

/-- Membership in `dias_uteis_no_intervalo`: exactly the weekdays of the
closed interval. -/
lemma dias_uteis_no_intervalo_mem (a b x : Int) :
    x ∈ dias_uteis_no_intervalo a b ↔ a ≤ x ∧ x ≤ b ∧ weekday x < 5 := by
  unfold dias_uteis_no_intervalo
  by_cases hab : a > b
  · rw [if_pos hab]
    simp only [List.not_mem_nil, false_iff]
    rintro ⟨h1, h2, _⟩
    omega
  · rw [if_neg hab]
    exact dias_uteis_go_mem b _ a x (by omega)

/-- `dias_uteis_no_intervalo` lists its dates in strictly increasing order. -/
lemma dias_uteis_no_intervalo_pairwise (a b : Int) :
    (dias_uteis_no_intervalo a b).Pairwise (· < ·) := by
  unfold dias_uteis_no_intervalo
  by_cases hab : a > b
  · rw [if_pos hab]
    exact List.Pairwise.nil
  · rw [if_neg hab]
    exact dias_uteis_go_pairwise b _ a (by omega)

/-- Structure of the daily distribution in the productive case. -/
lemma distribuir_diarias_eq (a b c : Int) (h : Rat) (hc : 0 < c)
    (hne : dias_uteis_no_intervalo a b ≠ []) :
    distribuir_tasks_diarias_por_colaboradores a b c h =
      (((dias_uteis_no_intervalo a b).flatMap fun d =>
          (List.range' 1 c.toNat).map fun dono_idx => (d, dono_idx)).zip
        (distribuir_com_ajuste_final 100 ((dias_uteis_no_intervalo a b).length * c) 1)).map
        fun pd =>
          { data := pd.1.1, horas_previstas := h, percentual_pendencia := pd.2,
            status := "planejada", ajustada_feriado := false,
            dono_idx := (pd.1.2 : Int), dono_total := c } := by
  simp only [distribuir_tasks_diarias_por_colaboradores,
    if_neg (show ¬c ≤ 0 by omega), if_neg hne]

lemma pares_length (dias : List Int) (k : Nat) :
    (dias.flatMap fun d => (List.range' 1 k).map fun j => (d, j)).length
      = dias.length * k := by
  induction dias with
  | nil => simp
  | cons d l ih =>
    rw [List.flatMap_cons, List.length_append, ih, List.length_map,
      List.length_range', List.length_cons]
    ring

lemma total_tasks_toNat {len : Nat} {c : Int} (hc : 0 < c) :
    ((len : Int) * c).toNat = len * c.toNat := by
  have hc' : ((c.toNat : ℕ) : Int) = c := Int.toNat_of_nonneg hc.le
  have : (len : Int) * c = ((len * c.toNat : ℕ) : Int) := by
    conv_lhs => rw [← hc']
    push_cast
    ring
  rw [this, Int.toNat_natCast]

/-- C2: the daily distributor fails closed on a non-positive headcount and on
an interval with no weekday; otherwise it emits one record per weekday per
collaborator, in date-major owner-minor order, each carrying the fixed hours,
status `"planejada"`, `ajustada_feriado = false` and `dono_total = c` (the
function takes no holiday argument at all); the week 2024-01-01 … 2024-01-05
with two collaborators yields exactly 10 records. -/
theorem claim_C2_distribuir_tasks_diarias (a b c : Int) (h : Rat) :
    (c ≤ 0 → distribuir_tasks_diarias_por_colaboradores a b c h = []) ∧
    (dias_uteis_no_intervalo a b = [] →
        distribuir_tasks_diarias_por_colaboradores a b c h = []) ∧
    (∀ x : Int, x ∈ dias_uteis_no_intervalo a b ↔ a ≤ x ∧ x ≤ b ∧ weekday x < 5) ∧
    (dias_uteis_no_intervalo a b).Pairwise (· < ·) ∧
    (0 < c → dias_uteis_no_intervalo a b ≠ [] →
      (distribuir_tasks_diarias_por_colaboradores a b c h).length
          = (dias_uteis_no_intervalo a b).length * c.toNat ∧
      (∀ r ∈ distribuir_tasks_diarias_por_colaboradores a b c h,
          r.horas_previstas = h ∧ r.status = "planejada" ∧
          r.ajustada_feriado = false ∧ r.dono_total = c) ∧
      (distribuir_tasks_diarias_por_colaboradores a b c h).map
          (fun r => (r.data, r.dono_idx))
        = (dias_uteis_no_intervalo a b).flatMap (fun d =>
            (List.range' 1 c.toNat).map (fun (j : ℕ) => (d, (j : Int))))) ∧
    (distribuir_tasks_diarias_por_colaboradores
        (daysFromCivil 2024 1 1) (daysFromCivil 2024 1 5) 2 9).length = 10 := by
  refine ⟨?_, ?_, dias_uteis_no_intervalo_mem a b,
    dias_uteis_no_intervalo_pairwise a b, ?_, by decide⟩
  · intro hc
    simp [distribuir_tasks_diarias_por_colaboradores, hc]
  · intro hdias
    simp [distribuir_tasks_diarias_por_colaboradores, hdias]
  · intro hc hne
    have hlen_pares := pares_length (dias_uteis_no_intervalo a b) c.toNat
    have hlen_perc : (distribuir_com_ajuste_final 100
        ((dias_uteis_no_intervalo a b).length * c) 1).length
        = (dias_uteis_no_intervalo a b).length * c.toNat := by
      have hn : (1 : Int) ≤ (dias_uteis_no_intervalo a b).length * c := by
        have hlp : (0 : Int) < (dias_uteis_no_intervalo a b).length := by
          exact_mod_cast List.length_pos.mpr hne
        have := mul_pos hlp hc
        omega
      rw [distribuir_com_ajuste_final_length _ _ _ hn, total_tasks_toNat hc]
    refine ⟨?_, ?_, ?_⟩
    · rw [distribuir_diarias_eq a b c h hc hne, List.length_map, List.length_zip,
        hlen_pares, hlen_perc, Nat.min_self]
    · intro r hr
      rw [distribuir_diarias_eq a b c h hc hne, List.mem_map] at hr
      obtain ⟨pd, _, rfl⟩ := hr
      exact ⟨rfl, rfl, rfl, rfl⟩
    · rw [distribuir_diarias_eq a b c h hc hne, List.map_map]
      have hfun : ((fun r : DailyTask => (r.data, r.dono_idx)) ∘
            fun pd : (Int × ℕ) × Rat =>
              ({ data := pd.1.1, horas_previstas := h, percentual_pendencia := pd.2,
                 status := "planejada", ajustada_feriado := false,
                 dono_idx := (pd.1.2 : Int), dono_total := c } : DailyTask))
          = (fun pr : Int × ℕ => (pr.1, (pr.2 : Int))) ∘ Prod.fst := rfl
      rw [hfun, ← List.map_map, List.map_fst_zip _ _ (by rw [hlen_pares, hlen_perc]),
        List.map_flatMap]
      refine List.flatMap_congr fun d _ => ?_
      rw [List.map_map]
      rfl

/-- Witness for C2: the concrete week with two collaborators, through the
non-degenerate branch of the theorem. -/
theorem claim_C2_witness :
    (distribuir_tasks_diarias_por_colaboradores
        (daysFromCivil 2024 1 1) (daysFromCivil 2024 1 5) 2 9).length
      = (dias_uteis_no_intervalo (daysFromCivil 2024 1 1)
          (daysFromCivil 2024 1 5)).length * (2 : Int).toNat :=
  ((claim_C2_distribuir_tasks_diarias (daysFromCivil 2024 1 1)
      (daysFromCivil 2024 1 5) 2 9).2.2.2.2.1 (by decide) (by decide)).1

/-- Structure of the legacy weekly distribution in the productive case. -/
lemma distribuir_semanais_eq (a b : Int) (h : Rat) (fer : List Int)
    (hne : dias_uteis_no_intervalo a b ≠ []) :
    distribuir_tasks_semanais a b h fer =
      ((dias_uteis_no_intervalo a b).zip
        ((distribuir_com_ajuste_final h ((dias_uteis_no_intervalo a b).length) 1).zip
         (distribuir_com_ajuste_final 100 ((dias_uteis_no_intervalo a b).length) 1))).map
        (fun t => { data := t.1, horas_previstas := t.2.1,
                    percentual_pendencia := t.2.2, status := "planejada",
                    ajustada_feriado := false }) := by
  simp only [distribuir_tasks_semanais, if_neg hne]

/-- C8: the output of `distribuir_tasks_semanais` does not depend on the
holiday set; it has one record per weekday of the interval (in order), each
with status `"planejada"` and `ajustada_feriado = false`, and its hours and
percentage columns are exactly the closing-adjustment distributions of the
total hours and of 100. -/
theorem claim_C8_distribuir_tasks_semanais (a b : Int) (h : Rat)
    (fer1 fer2 : List Int) :
    distribuir_tasks_semanais a b h fer1 = distribuir_tasks_semanais a b h fer2 ∧
    (∀ x : Int, x ∈ dias_uteis_no_intervalo a b ↔ a ≤ x ∧ x ≤ b ∧ weekday x < 5) ∧
    (distribuir_tasks_semanais a b h fer1).map (fun r => r.data)
        = dias_uteis_no_intervalo a b ∧
    (∀ r ∈ distribuir_tasks_semanais a b h fer1,
        r.status = "planejada" ∧ r.ajustada_feriado = false) ∧
    (dias_uteis_no_intervalo a b ≠ [] →
      (distribuir_tasks_semanais a b h fer1).map (fun r => r.horas_previstas)
          = distribuir_com_ajuste_final h ((dias_uteis_no_intervalo a b).length) 1 ∧
      (distribuir_tasks_semanais a b h fer1).map (fun r => r.percentual_pendencia)
          = distribuir_com_ajuste_final 100 ((dias_uteis_no_intervalo a b).length) 1) := by
  have hlen : ∀ tot : Rat, dias_uteis_no_intervalo a b ≠ [] →
      (distribuir_com_ajuste_final tot ((dias_uteis_no_intervalo a b).length) 1).length
        = (dias_uteis_no_intervalo a b).length := by
    intro tot hne
    have hp : (0 : Int) < (dias_uteis_no_intervalo a b).length := by
      exact_mod_cast List.length_pos.mpr hne
    rw [distribuir_com_ajuste_final_length _ _ _ (by omega), Int.toNat_natCast]
  refine ⟨rfl, dias_uteis_no_intervalo_mem a b, ?_, ?_, ?_⟩
  · by_cases hne : dias_uteis_no_intervalo a b = []
    · simp [distribuir_tasks_semanais, hne]
    · rw [distribuir_semanais_eq a b h fer1 hne, List.map_map]
      have hfun : ((fun r : SemanalRecord => r.data) ∘
            fun t : Int × Rat × Rat =>
              ({ data := t.1, horas_previstas := t.2.1,
                 percentual_pendencia := t.2.2, status := "planejada",
                 ajustada_feriado := false } : SemanalRecord)) = Prod.fst := rfl
      rw [hfun]
      refine List.map_fst_zip _ _ ?_
      rw [List.length_zip, hlen h hne, hlen 100 hne, Nat.min_self]
  · intro r hr
    by_cases hne : dias_uteis_no_intervalo a b = []
    · rw [distribuir_tasks_semanais] at hr
      simp only [hne, if_pos rfl] at hr
      cases hr
    · rw [distribuir_semanais_eq a b h fer1 hne, List.mem_map] at hr
      obtain ⟨t, _, rfl⟩ := hr
      exact ⟨rfl, rfl⟩
  · intro hne
    constructor
    · rw [distribuir_semanais_eq a b h fer1 hne, List.map_map]
      have hfun : ((fun r : SemanalRecord => r.horas_previstas) ∘
            fun t : Int × Rat × Rat =>
              ({ data := t.1, horas_previstas := t.2.1,
                 percentual_pendencia := t.2.2, status := "planejada",
                 ajustada_feriado := false } : SemanalRecord))
          = Prod.fst ∘ Prod.snd := rfl
      rw [hfun, ← List.map_map, List.map_snd_zip _ _ (by
        rw [List.length_zip, hlen h hne, hlen 100 hne, Nat.min_self]),
        List.map_fst_zip _ _ (by rw [hlen h hne, hlen 100 hne])]
    · rw [distribuir_semanais_eq a b h fer1 hne, List.map_map]
      have hfun : ((fun r : SemanalRecord => r.percentual_pendencia) ∘
            fun t : Int × Rat × Rat =>
              ({ data := t.1, horas_previstas := t.2.1,
                 percentual_pendencia := t.2.2, status := "planejada",
                 ajustada_feriado := false } : SemanalRecord))
          = Prod.snd ∘ Prod.snd := rfl
      rw [hfun, ← List.map_map, List.map_snd_zip _ _ (by
        rw [List.length_zip, hlen h hne, hlen 100 hne, Nat.min_self]),
        List.map_snd_zip _ _ (by rw [hlen h hne, hlen 100 hne])]

/-- Witness for C8: two different holiday sets produce identical output on the
concrete first week of 2024. -/
theorem claim_C8_witness :
    distribuir_tasks_semanais (daysFromCivil 2024 1 1) (daysFromCivil 2024 1 5)
        45 [daysFromCivil 2024 1 5]
      = distribuir_tasks_semanais (daysFromCivil 2024 1 1) (daysFromCivil 2024 1 5)
        45 [] :=
  (claim_C8_distribuir_tasks_semanais (daysFromCivil 2024 1 1)
    (daysFromCivil 2024 1 5) 45 [daysFromCivil 2024 1 5] []).1

/-! ### Friday-anchored schedule (C7) -/

/-- Number of weekly candidates `c, c+7, c+14, …` not exceeding `p`. -/
def numSextas (c p : Int) : Nat :=
  if c ≤ p then ((p - c) / 7 + 1).toNat else 0

/-- The weekly candidate dates themselves. -/
def sextasCandidatas (c p : Int) : List Int :=
  (List.range (numSextas c p)).map (fun (k : ℕ) => c + 7 * (k : Int))

lemma sextasCandidatas_cons {c p : Int} (h : c ≤ p) :
    sextasCandidatas c p = c :: sextasCandidatas (c + 7) p := by
  unfold sextasCandidatas numSextas
  rw [if_pos h]
  by_cases h7 : c + 7 ≤ p
  · rw [if_pos h7]
    have e : ((p - c) / 7 + 1).toNat = ((p - (c + 7)) / 7 + 1).toNat + 1 := by
      have h1 : (p - c) / 7 = (p - (c + 7)) / 7 + 1 := by omega
      omega
    rw [e, List.range_succ_eq_map, List.map_cons, List.map_map]
    congr 1
    · norm_num
    · refine List.map_congr_left fun k _ => ?_
      simp only [Function.comp_apply]
      push_cast
      ring
  · rw [if_neg h7]
    have e : ((p - c) / 7 + 1).toNat = 1 := by
      have h1 : (p - c) / 7 = 0 := by omega
      omega
    rw [e, show List.range 1 = [0] from rfl, List.map_cons, List.map_nil]
    norm_num

/-- The weekly loop of `proximas_datas_tasks` resolves each candidate Friday
and keeps exactly those whose resolved date still meets the deadline. -/
lemma proximas_datas_go_eq (p : Int) (fer : List Int) :
    ∀ (fuel : Nat) (c : Int), p + 1 - c ≤ 7 * fuel →
      proximas_datas_go p fer fuel c
        = (sextasCandidatas c p).flatMap (fun s =>
            if resolver_data_task s fer ≤ p
            then [(resolver_data_task s fer, decide (s ∈ fer))] else []) := by
  intro fuel
  induction fuel with
  | zero =>
    intro c h
    have hcp : ¬c ≤ p := by omega
    simp [proximas_datas_go, sextasCandidatas, numSextas, hcp]
  | succ fuel ih =>
    intro c h
    simp only [proximas_datas_go]
    by_cases hcp : c ≤ p
    · rw [if_pos hcp, sextasCandidatas_cons hcp, List.flatMap_cons,
        ih (c + 7) (by omega)]
    · rw [if_neg hcp]
      simp [sextasCandidatas, numSextas, hcp]

/-- C7: whenever the interval is non-trivial the schedule is non-empty; the
candidates are the Fridays starting at the first Friday on or after `start`
and advancing weekly, each moved by +3 days exactly when it is a holiday
(`resolver_data_task` leaves a non-holiday unchanged), candidates whose
resolved date exceeds the deadline are dropped, and if nothing remains the
result is exactly `[(deadline, false)]`. -/
theorem claim_C7_proximas_datas_tasks (ini prazo : Int) (fer : List Int)
    (h : ini ≤ prazo) :
    proximas_datas_tasks ini prazo fer ≠ [] ∧
    weekday (proxima_sexta_ou_mesma ini) = 4 ∧
    ini ≤ proxima_sexta_ou_mesma ini ∧
    proxima_sexta_ou_mesma ini < ini + 7 ∧
    (∀ s : Int, resolver_data_task s fer = if s ∈ fer then s + 3 else s) ∧
    (proximas_datas_tasks ini prazo fer =
      if (sextasCandidatas (proxima_sexta_ou_mesma ini) prazo).flatMap (fun s =>
            if resolver_data_task s fer ≤ prazo
            then [(resolver_data_task s fer, decide (s ∈ fer))] else []) = []
      then [(prazo, false)]
      else (sextasCandidatas (proxima_sexta_ou_mesma ini) prazo).flatMap (fun s =>
            if resolver_data_task s fer ≤ prazo
            then [(resolver_data_task s fer, decide (s ∈ fer))] else [])) := by
  have hgo := proximas_datas_go_eq prazo fer
      (prazo + 1 - proxima_sexta_ou_mesma ini).toNat (proxima_sexta_ou_mesma ini)
      (by omega)
  have hchar : proximas_datas_tasks ini prazo fer =
      if (sextasCandidatas (proxima_sexta_ou_mesma ini) prazo).flatMap (fun s =>
            if resolver_data_task s fer ≤ prazo
            then [(resolver_data_task s fer, decide (s ∈ fer))] else []) = []
      then [(prazo, false)]
      else (sextasCandidatas (proxima_sexta_ou_mesma ini) prazo).flatMap (fun s =>
            if resolver_data_task s fer ≤ prazo
            then [(resolver_data_task s fer, decide (s ∈ fer))] else []) := by
    unfold proximas_datas_tasks
    rw [hgo]
    by_cases hres : (sextasCandidatas (proxima_sexta_ou_mesma ini) prazo).flatMap
        (fun s => if resolver_data_task s fer ≤ prazo
          then [(resolver_data_task s fer, decide (s ∈ fer))] else []) = []
    · rw [if_pos ⟨hres, h⟩, if_pos hres]
    · rw [if_neg (fun hand => hres hand.1), if_neg hres]
  refine ⟨?_, ?_, ?_, ?_, fun s => rfl, hchar⟩
  · rw [hchar]
    split_ifs with hres
    · simp
    · exact hres
  · unfold proxima_sexta_ou_mesma weekday
    omega
  · unfold proxima_sexta_ou_mesma weekday
    omega
  · unfold proxima_sexta_ou_mesma weekday
    omega

/-- Witness for C7: first week of 2024 with the Friday a holiday. -/
theorem claim_C7_witness :
    proximas_datas_tasks (daysFromCivil 2024 1 1) (daysFromCivil 2024 1 8)
      [daysFromCivil 2024 1 5] ≠ [] :=
  (claim_C7_proximas_datas_tasks (daysFromCivil 2024 1 1) (daysFromCivil 2024 1 8)
    [daysFromCivil 2024 1 5] (by decide)).1

/-- C9: the generic task label is
`"{os} - {subconjunto} - {pct} | Dia {dd/mm}"`, where the percentage is
rendered without a decimal point when it is within `1e-9` of a whole number
and with exactly one decimal digit otherwise; in particular
`("01058", "Estação 100", 50.0, 2024-03-15)` gives
`"01058 - Estação 100 - 50% | Dia 15/03"` and `33.333` renders as `33.3%`. -/
theorem claim_C9_formatar_nome_task_generica (os sub : String) (p : Rat)
    (day : Int) :
    (|p - (rhe p : Rat)| < 1/1000000000 →
      formatar_nome_task_generica os sub p day
        = os ++ " - " ++ sub ++ " - " ++ (toString (rhe p) ++ "%")
            ++ " | Dia " ++ fmtDDMM day) ∧
    (¬|p - (rhe p : Rat)| < 1/1000000000 →
      formatar_nome_task_generica os sub p day
        = os ++ " - " ++ sub ++ " - "
            ++ (toString (rhe (p * 10) / 10) ++ "." ++ toString (rhe (p * 10) % 10) ++ "%")
            ++ " | Dia " ++ fmtDDMM day) ∧
    formatar_nome_task_generica "01058" "Estação 100" 50 (daysFromCivil 2024 3 15)
      = "01058 - Estação 100 - 50% | Dia 15/03" ∧
    formatar_nome_task_generica "01058" "Estação 100" 33.333 (daysFromCivil 2024 3 15)
      = "01058 - Estação 100 - 33.3% | Dia 15/03" := by
  refine ⟨?_, ?_, by decide, by decide⟩
  · intro hwhole
    simp only [formatar_nome_task_generica, fmtFixed0, if_pos hwhole]
  · intro hfrac
    simp only [formatar_nome_task_generica, fmtFixed1, if_neg hfrac]

/-- Witness for C9: both rendering branches at concrete percentages. -/
theorem claim_C9_witness :
    formatar_nome_task_generica "01058" "Estação 100" 50 (daysFromCivil 2024 3 15)
        = "01058" ++ " - " ++ "Estação 100" ++ " - " ++ (toString (rhe 50) ++ "%")
            ++ " | Dia " ++ fmtDDMM (daysFromCivil 2024 3 15) ∧
    formatar_nome_task_generica "01058" "Estação 100" 33.333 (daysFromCivil 2024 3 15)
        = "01058" ++ " - " ++ "Estação 100" ++ " - "
            ++ (toString (rhe ((33.333 : Rat) * 10) / 10) ++ "."
                ++ toString (rhe ((33.333 : Rat) * 10) % 10) ++ "%")
            ++ " | Dia " ++ fmtDDMM (daysFromCivil 2024 3 15) :=
  ⟨(claim_C9_formatar_nome_task_generica "01058" "Estação 100" 50
      (daysFromCivil 2024 3 15)).1 (by decide),
   (claim_C9_formatar_nome_task_generica "01058" "Estação 100" 33.333
      (daysFromCivil 2024 3 15)).2.1 (by decide)⟩

/-- C10: `resolver_data_task` never re-checks the shifted date: if a Friday
and the following Monday are both holidays, the task still lands on that
Monday, itself a holiday; consequently `proximas_datas_tasks` can schedule a
task on a holiday, as the concrete run 2024-01-05 → 2024-01-08 shows. -/
theorem claim_C10_resolver_data_task_sem_reverificacao (f : Int)
    (fer : List Int) (h1 : f ∈ fer) (h2 : f + 3 ∈ fer) :
    resolver_data_task f fer = f + 3 ∧
    resolver_data_task f fer ∈ fer ∧
    (proximas_datas_tasks (daysFromCivil 2024 1 5) (daysFromCivil 2024 1 8)
        [daysFromCivil 2024 1 5, daysFromCivil 2024 1 8]
      = [(daysFromCivil 2024 1 8, true)] ∧
     daysFromCivil 2024 1 8
        ∈ [daysFromCivil 2024 1 5, daysFromCivil 2024 1 8]) := by
  have hres : resolver_data_task f fer = f + 3 := by
    unfold resolver_data_task
    rw [if_pos h1]
  exact ⟨hres, by rw [hres]; exact h2, by decide, by decide⟩

/-- Witness for C10: the Friday 2024-01-05 with both it and the following
Monday in the holiday set. -/
theorem claim_C10_witness :
    resolver_data_task (daysFromCivil 2024 1 5)
        [daysFromCivil 2024 1 5, daysFromCivil 2024 1 8]
      = daysFromCivil 2024 1 5 + 3 ∧
    resolver_data_task (daysFromCivil 2024 1 5)
        [daysFromCivil 2024 1 5, daysFromCivil 2024 1 8]
      ∈ [daysFromCivil 2024 1 5, daysFromCivil 2024 1 8] :=
  ⟨(claim_C10_resolver_data_task_sem_reverificacao (daysFromCivil 2024 1 5)
      [daysFromCivil 2024 1 5, daysFromCivil 2024 1 8] (by decide) (by decide)).1,
   (claim_C10_resolver_data_task_sem_reverificacao (daysFromCivil 2024 1 5)
      [daysFromCivil 2024 1 5, daysFromCivil 2024 1 8] (by decide) (by decide)).2.1⟩

end WbsTool
